import Mathlib

/-!
# Verification of the stock-rotator repository

The repository is a NIFTY CSV rotator: a backend that rotates a cursor over
an ordered dataset of rows, evaluates registered trading conditions against
the current row on every tick, and persists cursor/registry state; and a
Next.js frontend that polls the backend, stores chat history and shown
alerts in localStorage.

The backend Python modules (`csv_rotator.py`, `condition_service.py`,
`routes.py`) are documented in the repository but their source is not
present; the definitions for those components are modelled from the spec,
as marked in their doc comments.  The frontend code
(`frontend/src/lib/storage.js`, the `Home` page component) is embedded
directly from the source.
-/

namespace StockRotator

/-! ## Rotating cursor (backend) -/

/-- Modelled from the spec: `CursorState = {index, total}` as maintained by
the backend Rotating Cursor (`csv_rotator.py`, absent from the available
sources). -/
structure CursorState where
  index : Nat
  total : Nat
deriving Repr, DecidableEq

/-- Modelled from the spec: `tick()` advances the index by one position,
wrapping to 0 after the last row (`+1 mod total`). -/
def tick (c : CursorState) : CursorState :=
  { c with index := (c.index + 1) % c.total }

/-- `n` successive applications of `tick`. -/
def tickN : Nat → CursorState → CursorState
  | 0, c => c
  | n + 1, c => tickN n (tick c)

theorem tickN_eq (n : Nat) (i N : Nat) (hN : 0 < N) (hi : i < N) :
    tickN n ⟨i, N⟩ = ⟨(i + n) % N, N⟩ := by
  induction n generalizing i with
  | zero => simp [tickN, Nat.mod_eq_of_lt hi]
  | succ n ih =>
    show tickN n (tick ⟨i, N⟩) = _
    rw [show tick ⟨i, N⟩ = ⟨(i + 1) % N, N⟩ from rfl,
      ih ((i + 1) % N) (Nat.mod_lt _ hN)]
    congr 1
    rw [Nat.mod_add_mod]
    congr 1
    omega

/-- C1: for every dataset of size `N > 0`, starting the cursor at index
0 and applying `tick()` `n` times leaves the cursor index equal to
`n mod N`; each tick advances the index by `+1 mod N`, and the invariant
`0 ≤ index < total` is preserved. -/
theorem cursor_tick_mod (n N : Nat) (hN : 0 < N) :
    (tickN n ⟨0, N⟩).index = n % N ∧
      (tickN n ⟨0, N⟩).index < N ∧
      ∀ c : CursorState, c.total = N →
        (tick c).index = (c.index + 1) % N := by
  refine ⟨?_, ?_, ?_⟩
  · rw [tickN_eq n 0 N hN hN]
    simp
  · rw [tickN_eq n 0 N hN hN]
    exact Nat.mod_lt _ hN
  · intro c hc
    simp [tick, hc]

/-- Witness for C1 at `n = 7`, `N = 3`: the index after 7 ticks is
`7 % 3 = 1`. -/
theorem cursor_tick_mod_witness :
    (tickN 7 ⟨0, 3⟩).index = 7 % 3 ∧
      (tickN 7 ⟨0, 3⟩).index < 3 ∧
      ∀ c : CursorState, c.total = 3 →
        (tick c).index = (c.index + 1) % 3 :=
  cursor_tick_mod 7 3 (by decide)

/-! ## Conditions and the evaluation engine (backend) -/

/-- Modelled from the spec: comparison operators of a `ConditionSpec`
(`condition_service.py`, absent from the available sources). -/
inductive CmpOp where
  | gt
  | lt
  | ge
  | le
  | eq
  | ne
deriving Repr, DecidableEq

/-- Modelled from the spec: `value_type` of a `ConditionSpec`. -/
inductive ValueType where
  | number
  | string
deriving Repr, DecidableEq

/-- Modelled from the spec: lifecycle status of a `Condition`. -/
inductive Status where
  | pending
  | triggered
  | failed
deriving Repr, DecidableEq

/-- Modelled from the spec: `ConditionSpec = {field, operator, value,
value_type}`, immutable once created. -/
structure ConditionSpec where
  field : String
  op : CmpOp
  value : String
  value_type : ValueType
deriving Repr, DecidableEq

/-- Modelled from the spec: a `Condition` record.  Identifiers are numbers
standing in for UUIDs; timestamps are numbers. -/
structure Condition where
  id : Nat
  message : String
  status : Status
  command_time : Nat
  parsed_time : Nat
  last_checked_time : Nat
  triggered_time : Option Nat
  assistant_message : String
  spec : Option ConditionSpec
deriving Repr, DecidableEq

/-- A row: an ordered mapping from field name to verbatim string value. -/
def Row := List (String × String)

/-- Field lookup in a row. -/
def rowGet (row : Row) (f : String) : Option String :=
  (row.find? (fun p => p.1 == f)).map (fun p => p.2)

/-- Accumulate a digit list into a natural number. -/
def digitsToNat (cs : List Char) : Nat :=
  cs.foldl (fun a c => 10 * a + (c.toNat - 48)) 0

/-- Modelled from the spec: parse a decimal string as a floating-point
number ("number: parse both as floating-point"), represented exactly as a
rational.  Accepts an optional sign, an integer part and an optional
fractional part; anything else is a parse error (`none`). -/
def parseNum (s : String) : Option Rat :=
  let cs := s.data
  let signCs : Bool × List Char :=
    match cs with
    | '-' :: rest => (true, rest)
    | '+' :: rest => (false, rest)
    | _ => (false, cs)
  let neg := signCs.1
  let body := signCs.2
  let intPart := body.takeWhile Char.isDigit
  let rest := body.dropWhile Char.isDigit
  match rest with
  | [] =>
    if intPart.isEmpty then none
    else
      let q : Rat := (digitsToNat intPart : Rat)
      some (if neg then -q else q)
  | '.' :: fracPart =>
    if fracPart.all Char.isDigit && !(intPart.isEmpty && fracPart.isEmpty) then
      let q : Rat :=
        (digitsToNat (intPart ++ fracPart) : Rat) / ((10 : Rat) ^ fracPart.length)
      some (if neg then -q else q)
    else none
  | _ => none

/-- Apply a comparison operator to two rationals. -/
def applyOpNum (op : CmpOp) (a b : Rat) : Bool :=
  match op with
  | .gt => b < a
  | .lt => a < b
  | .ge => b ≤ a
  | .le => a ≤ b
  | .eq => a == b
  | .ne => a != b

/-- Apply a comparison operator to two strings (compared as-is). -/
def applyOpStr (op : CmpOp) (a b : String) : Bool :=
  match op with
  | .gt => b < a
  | .lt => a < b
  | .ge => !(a < b)
  | .le => !(b < a)
  | .eq => a == b
  | .ne => a != b

/-- Modelled from the spec: coerce both sides per `value_type` and apply
the operator; a numeric parse error fails the comparison (non-match), not
the condition. -/
def specMatches (s : ConditionSpec) (rowVal : String) : Bool :=
  match s.value_type with
  | .number =>
    match parseNum rowVal, parseNum s.value with
    | some a, some b => applyOpNum s.op a b
    | _, _ => false
  | .string => applyOpStr s.op rowVal s.value

/-- Modelled from the spec: one evaluation of a single condition against
the current row at time `now`.  Only `pending` conditions are touched; a
missing field or a failed comparison leaves the condition `pending` with
`last_checked_time` advanced; a match sets `status = triggered` and
`triggered_time = now`; `last_checked_time` is always set to `now` for an
evaluated condition. -/
def evalCond (now : Nat) (row : Row) (c : Condition) : Condition :=
  if c.status = .pending then
    match c.spec with
    | none => { c with last_checked_time := now }
    | some s =>
      match rowGet row s.field with
      | none => { c with last_checked_time := now }
      | some v =>
        if specMatches s v then
          { c with status := .triggered, triggered_time := some now,
                   last_checked_time := now }
        else
          { c with last_checked_time := now }
  else c

/-- Modelled from the spec: the evaluation pass run after each tick over
the whole registry, in insertion order. -/
def evalPass (now : Nat) (row : Row) (reg : List Condition) : List Condition :=
  reg.map (evalCond now row)

/-- Modelled from the spec: `register` allocates a new condition with
`status = pending` when a valid spec was supplied and `status = failed`
when parsing failed (null spec), and appends it to the registry. -/
def register (reg : List Condition) (id : Nat) (message : String)
    (command_time parsed_time : Nat) (assistant_message : String)
    (spec : Option ConditionSpec) : List Condition :=
  reg ++ [{ id := id
            message := message
            status := if spec.isSome then .pending else .failed
            command_time := command_time
            parsed_time := parsed_time
            last_checked_time := parsed_time
            triggered_time := none
            assistant_message := assistant_message
            spec := spec }]

/-- An event touching the registry: a tick (which runs the evaluation
pass) or a registration. -/
inductive RegEvent where
  | tickEv (now : Nat) (row : Row)
  | registerEv (id : Nat) (message : String) (ct pt : Nat) (am : String)
      (sp : Option ConditionSpec)

/-- Apply one event to the registry. -/
def applyEvent (reg : List Condition) : RegEvent → List Condition
  | .tickEv now row => evalPass now row reg
  | .registerEv id msg ct pt am sp => register reg id msg ct pt am sp

/-- Apply a sequence of events to the registry. -/
def applyEvents (reg : List Condition) (evs : List RegEvent) : List Condition :=
  evs.foldl applyEvent reg

theorem evalCond_of_terminal (now : Nat) (row : Row) (c : Condition)
    (h : c.status ≠ .pending) : evalCond now row c = c := by
  simp [evalCond, h]

/-- C2: a condition whose status is terminal (`triggered` or `failed`)
survives any further sequence of ticks and registrations completely
unchanged: the very same record — same `spec`, `status`, `triggered_time`
and every other field — is still a member of the registry. -/
theorem terminal_immutable (reg : List Condition) (c : Condition)
    (evs : List RegEvent) (hmem : c ∈ reg)
    (hterm : c.status = .triggered ∨ c.status = .failed) :
    c ∈ applyEvents reg evs := by
  have hne : c.status ≠ .pending := by
    rcases hterm with h | h <;> simp [h]
  induction evs generalizing reg with
  | nil => exact hmem
  | cons e evs ih =>
    refine ih (applyEvent reg e) ?_
    cases e with
    | tickEv now row =>
      have : evalCond now row c = c := evalCond_of_terminal now row c hne
      simpa [applyEvent, evalPass, this] using
        List.mem_map_of_mem (evalCond now row) hmem
    | registerEv id msg ct pt am sp =>
      simp [applyEvent, register]
      exact Or.inl hmem

/-- Witness for C2: a concrete triggered condition survives a tick
followed by a registration unchanged. -/
theorem terminal_immutable_witness :
    let c : Condition :=
      { id := 1, message := "m", status := .triggered, command_time := 0,
        parsed_time := 1, last_checked_time := 2, triggered_time := some 2,
        assistant_message := "a",
        spec := some ⟨"Close", .gt, "100", .number⟩ }
    c ∈ applyEvents [c]
      [.tickEv 9 [("Close", "150")], .registerEv 2 "n" 3 4 "b" none] := by
  intro c
  exact terminal_immutable [c] c _ (by simp) (Or.inl rfl)

/-- C3: for a pending condition whose spec field is present in the current
row, one evaluation coerces both sides per `value_type` and applies the
operator (the function `specMatches`); on a match the status becomes
`triggered` with `triggered_time = now`, on a non-match the status remains
`pending`, and `last_checked_time` is set to `now` in both cases. -/
theorem eval_pending_present (now : Nat) (row : Row) (c : Condition)
    (s : ConditionSpec) (v : String)
    (hp : c.status = .pending) (hs : c.spec = some s)
    (hv : rowGet row s.field = some v) :
    (evalCond now row c).last_checked_time = now ∧
      (specMatches s v = true →
        (evalCond now row c).status = .triggered ∧
          (evalCond now row c).triggered_time = some now) ∧
      (specMatches s v = false →
        (evalCond now row c).status = .pending ∧
          (evalCond now row c).triggered_time = c.triggered_time) := by
  cases hm : specMatches s v <;>
    simp [evalCond, hp, hs, hv, hm]

/-- Witness for C3: the spec `{field: Close, operator: >, value: 100,
value_type: number}` evaluated at time 5 triggers against a row with
`Close = "150"` and stays pending against `Close = "50"`. -/
theorem eval_pending_present_witness :
    ((evalCond 5 [("Close", "150")]
        { id := 1, message := "m", status := .pending, command_time := 0,
          parsed_time := 1, last_checked_time := 1, triggered_time := none,
          assistant_message := "a",
          spec := some ⟨"Close", .gt, "100", .number⟩ }).status = .triggered ∧
      (evalCond 5 [("Close", "150")]
        { id := 1, message := "m", status := .pending, command_time := 0,
          parsed_time := 1, last_checked_time := 1, triggered_time := none,
          assistant_message := "a",
          spec := some ⟨"Close", .gt, "100", .number⟩ }).triggered_time = some 5) ∧
      (evalCond 5 [("Close", "50")]
        { id := 1, message := "m", status := .pending, command_time := 0,
          parsed_time := 1, last_checked_time := 1, triggered_time := none,
          assistant_message := "a",
          spec := some ⟨"Close", .gt, "100", .number⟩ }).status = .pending ∧
      (evalCond 5 [("Close", "150")]
        { id := 1, message := "m", status := .pending, command_time := 0,
          parsed_time := 1, last_checked_time := 1, triggered_time := none,
          assistant_message := "a",
          spec := some ⟨"Close", .gt, "100", .number⟩ }).last_checked_time = 5 := by
  have h150 := eval_pending_present 5 [("Close", "150")]
    { id := 1, message := "m", status := .pending, command_time := 0,
      parsed_time := 1, last_checked_time := 1, triggered_time := none,
      assistant_message := "a",
      spec := some ⟨"Close", .gt, "100", .number⟩ }
    ⟨"Close", .gt, "100", .number⟩ "150" rfl rfl rfl
  have h50 := eval_pending_present 5 [("Close", "50")]
    { id := 1, message := "m", status := .pending, command_time := 0,
      parsed_time := 1, last_checked_time := 1, triggered_time := none,
      assistant_message := "a",
      spec := some ⟨"Close", .gt, "100", .number⟩ }
    ⟨"Close", .gt, "100", .number⟩ "50" rfl rfl rfl
  exact ⟨h150.2.1 (by decide), (h50.2.2 (by decide)).1, h150.1⟩

/-- C5: for a pending condition, if the spec's field is absent from the
row, or `value_type = number` and either side fails to parse as a number,
the evaluation never moves the condition out of `pending` (in particular
it is not marked `failed`), leaves `spec` and `triggered_time` untouched,
and still advances `last_checked_time` to `now`.  `evalCond` is a total
function, so no error is raised. -/
theorem eval_harmless_failure (now : Nat) (row : Row) (c : Condition)
    (s : ConditionSpec)
    (hp : c.status = .pending) (hs : c.spec = some s)
    (h : rowGet row s.field = none ∨
      ∃ v, rowGet row s.field = some v ∧ s.value_type = .number ∧
        (parseNum v = none ∨ parseNum s.value = none)) :
    (evalCond now row c).status = .pending ∧
      (evalCond now row c).last_checked_time = now ∧
      (evalCond now row c).spec = c.spec ∧
      (evalCond now row c).triggered_time = c.triggered_time := by
  rcases h with habs | ⟨v, hv, hnum, hpf⟩
  · simp [evalCond, hp, hs, habs]
  · have hm : specMatches s v = false := by
      rcases hpf with h1 | h1 <;>
        · unfold specMatches
          rw [hnum]
          cases h2 : parseNum v <;> cases h3 : parseNum s.value <;>
            simp_all
    simp [evalCond, hp, hs, hv, hm]

/-- Witness for C5: a pending condition watching field `Open`, evaluated
against a row that only has `Close`, stays pending with
`last_checked_time` advanced; likewise a numeric spec whose row value
`abc` does not parse. -/
theorem eval_harmless_failure_witness :
    ((evalCond 7 [("Close", "150")]
        { id := 1, message := "m", status := .pending, command_time := 0,
          parsed_time := 1, last_checked_time := 1, triggered_time := none,
          assistant_message := "a",
          spec := some ⟨"Open", .gt, "100", .number⟩ }).status = .pending ∧
      (evalCond 7 [("Close", "150")]
        { id := 1, message := "m", status := .pending, command_time := 0,
          parsed_time := 1, last_checked_time := 1, triggered_time := none,
          assistant_message := "a",
          spec := some ⟨"Open", .gt, "100", .number⟩ }).last_checked_time = 7) ∧
      (evalCond 7 [("Close", "abc")]
        { id := 1, message := "m", status := .pending, command_time := 0,
          parsed_time := 1, last_checked_time := 1, triggered_time := none,
          assistant_message := "a",
          spec := some ⟨"Close", .gt, "100", .number⟩ }).status = .pending := by
  have habs := eval_harmless_failure 7 [("Close", "150")]
    { id := 1, message := "m", status := .pending, command_time := 0,
      parsed_time := 1, last_checked_time := 1, triggered_time := none,
      assistant_message := "a",
      spec := some ⟨"Open", .gt, "100", .number⟩ }
    ⟨"Open", .gt, "100", .number⟩ rfl rfl (Or.inl (by decide))
  have hbad := eval_harmless_failure 7 [("Close", "abc")]
    { id := 1, message := "m", status := .pending, command_time := 0,
      parsed_time := 1, last_checked_time := 1, triggered_time := none,
      assistant_message := "a",
      spec := some ⟨"Close", .gt, "100", .number⟩ }
    ⟨"Close", .gt, "100", .number⟩ rfl rfl
    (Or.inr ⟨"abc", by decide, rfl, Or.inl (by decide)⟩)
  exact ⟨⟨habs.1, habs.2.1⟩, hbad.1⟩

/-! ## Startup restore (backend) -/

/-- Modelled from the spec: at startup, if a persisted cursor state exists
and its `total` matches the freshly loaded dataset's length, restore the
saved index; otherwise (no snapshot, or mismatched `total`) initialize the
index to 0.  A total function: neither case raises an error. -/
def restoreIndex (snapshot : Option CursorState) (datasetLen : Nat) : Nat :=
  match snapshot with
  | none => 0
  | some s => if s.total = datasetLen then s.index else 0

/-- C4: a snapshot whose `total` matches the dataset length restores the
saved index; a missing snapshot or a mismatched `total` yields index 0
without error; and resuming `m` ticks from the index persisted after `n`
ticks reproduces the state of an uninterrupted run of `n + m` ticks. -/
theorem startup_restore (N : Nat) (hN : 0 < N) :
    restoreIndex none N = 0 ∧
      (∀ s : CursorState, s.total ≠ N → restoreIndex (some s) N = 0) ∧
      (∀ i : Nat, restoreIndex (some ⟨i, N⟩) N = i) ∧
      ∀ n m : Nat,
        tickN m ⟨restoreIndex (some ⟨(tickN n ⟨0, N⟩).index, N⟩) N, N⟩ =
          tickN (n + m) ⟨0, N⟩ := by
  refine ⟨rfl, ?_, ?_, ?_⟩
  · intro s hs
    simp [restoreIndex, hs]
  · intro i
    simp [restoreIndex]
  · intro n m
    rw [tickN_eq n 0 N hN hN]
    have hres : restoreIndex (some ⟨(0 + n) % N, N⟩) N = (0 + n) % N := by
      simp [restoreIndex]
    rw [hres, tickN_eq m ((0 + n) % N) N hN (Nat.mod_lt _ hN),
      tickN_eq (n + m) 0 N hN hN]
    congr 1
    rw [Nat.mod_add_mod]
    congr 1
    omega

/-- Witness for C4 at `N = 3`: restore of a matching snapshot after 4
ticks, then 5 further ticks, agrees with 9 uninterrupted ticks. -/
theorem startup_restore_witness :
    restoreIndex none 3 = 0 ∧
      (∀ s : CursorState, s.total ≠ 3 → restoreIndex (some s) 3 = 0) ∧
      (∀ i : Nat, restoreIndex (some ⟨i, 3⟩) 3 = i) ∧
      ∀ n m : Nat,
        tickN m ⟨restoreIndex (some ⟨(tickN n ⟨0, 3⟩).index, 3⟩) 3, 3⟩ =
          tickN (n + m) ⟨0, 3⟩ :=
  startup_restore 3 (by decide)

/-! ## Condition listing (backend) -/

/-- Ordering of conditions by `command_time`. -/
def ctLE (a b : Condition) : Prop := a.command_time ≤ b.command_time

instance : DecidableRel ctLE := fun a b => Nat.decLe a.command_time b.command_time

instance : IsTotal Condition ctLE :=
  ⟨fun a b => Nat.le_total a.command_time b.command_time⟩

instance : IsTrans Condition ctLE := ⟨fun _ _ _ => Nat.le_trans⟩

/-- Modelled from the spec: `list()` returns the registry sorted by
`command_time` ascending, ties broken by insertion order — a stable sort
of the insertion-ordered collection. -/
def listConditions (reg : List Condition) : List Condition :=
  List.insertionSort ctLE reg

theorem filter_orderedInsert_ct (t : Nat) (a : Condition) (l : List Condition) :
    (List.orderedInsert ctLE a l).filter (fun c => c.command_time == t) =
      if a.command_time = t then
        a :: l.filter (fun c => c.command_time == t)
      else l.filter (fun c => c.command_time == t) := by
  induction l with
  | nil =>
    by_cases h : a.command_time = t <;>
      simp [List.orderedInsert, List.filter_cons, h]
  | cons b l ih =>
    by_cases hab : ctLE a b
    · by_cases ha : a.command_time = t <;>
        simp [List.orderedInsert, if_pos hab, List.filter_cons, ha]
    · have hb : b.command_time < a.command_time :=
        Nat.lt_of_not_le hab
      by_cases ha : a.command_time = t
      · have hbt : ¬ b.command_time = t := by omega
        simp [List.orderedInsert, if_neg hab, List.filter_cons, ih, ha, hbt]
      · by_cases hbt : b.command_time = t <;>
          simp [List.orderedInsert, if_neg hab, List.filter_cons, ih, ha, hbt]

theorem filter_insertionSort_ct (t : Nat) (l : List Condition) :
    (List.insertionSort ctLE l).filter (fun c => c.command_time == t) =
      l.filter (fun c => c.command_time == t) := by
  induction l with
  | nil => rfl
  | cons a l ih =>
    show (List.orderedInsert ctLE a (List.insertionSort ctLE l)).filter _ = _
    rw [filter_orderedInsert_ct, ih]
    by_cases h : a.command_time = t <;> simp [List.filter_cons, h]

/-- C6: for every registry state, `list()` returns the conditions sorted
by `command_time` ascending, it returns exactly the registered conditions
(a permutation), and ties are broken by insertion order: the conditions
sharing any given `command_time` appear in exactly their registry
(insertion) order. -/
theorem listConditions_sorted_stable (reg : List Condition) :
    (listConditions reg).Sorted ctLE ∧
      (listConditions reg).Perm reg ∧
      ∀ t : Nat,
        (listConditions reg).filter (fun c => c.command_time == t) =
          reg.filter (fun c => c.command_time == t) :=
  ⟨List.sorted_insertionSort ctLE reg, List.perm_insertionSort ctLE reg,
    fun t => filter_insertionSort_ct t reg⟩

/-! ## Current row endpoint (backend) -/

/-- Shape of the `GET /row` response: the current row's field mapping, the
cursor index, and the dataset length. -/
structure RowResponse where
  row : Row
  index : Nat
  total : Nat

/-- The backend's in-memory state: the immutable row sequence and the
cursor. -/
structure BackendState where
  rows : List Row
  cursor : CursorState

/-- Modelled from the spec: `GetCurrentRow() -> {row, index, total}`
returns the row at the current index, the current index, and the dataset
length (the `GET /row` route handler is absent from the available
sources). -/
def GetCurrentRow (st : BackendState) : RowResponse :=
  { row := st.rows.getD st.cursor.index []
    index := st.cursor.index
    total := st.rows.length }

/-- C7: `GetCurrentRow` returns exactly `{row, index, total}` where `row`
is the dataset row at the cursor index, `index` is the cursor index and
`total` is the dataset length. -/
theorem getCurrentRow_shape (st : BackendState)
    (h : st.cursor.index < st.rows.length) :
    (GetCurrentRow st).row = st.rows.get ⟨st.cursor.index, h⟩ ∧
      (GetCurrentRow st).index = st.cursor.index ∧
      (GetCurrentRow st).total = st.rows.length :=
  ⟨List.getD_eq_getElem st.rows [] h, rfl, rfl⟩

/-- Witness for C7 on a two-row dataset with the cursor at index 1. -/
theorem getCurrentRow_shape_witness :
    (GetCurrentRow ⟨[[("Close", "1")], [("Close", "2")]], ⟨1, 2⟩⟩).row =
        [("Close", "2")] ∧
      (GetCurrentRow ⟨[[("Close", "1")], [("Close", "2")]], ⟨1, 2⟩⟩).index = 1 ∧
      (GetCurrentRow ⟨[[("Close", "1")], [("Close", "2")]], ⟨1, 2⟩⟩).total = 2 :=
  getCurrentRow_shape ⟨[[("Close", "1")], [("Close", "2")]], ⟨1, 2⟩⟩
    (by decide)

/-! ## Frontend: JS object primitives

JS objects keyed by strings are modelled as ordered association lists,
matching JS key insertion order: assignment to an existing key updates it
in place, assignment to a fresh key appends it. -/

/-- JS property assignment `m[k] = v`. -/
def objUpd {β : Type} (m : List (String × β)) (k : String) (v : β) :
    List (String × β) :=
  if (m.find? (fun p => p.1 == k)).isSome then
    m.map (fun p => if p.1 == k then (p.1, v) else p)
  else m ++ [(k, v)]

/-- JS property read `m[k]`. -/
def objGet {β : Type} (m : List (String × β)) (k : String) : Option β :=
  (m.find? (fun p => p.1 == k)).map (fun p => p.2)

theorem comp_upd_pred {β : Type} (k j : String) (v : β) :
    ((fun p : String × β => p.1 == j) ∘
        fun p => if p.1 == k then (p.1, v) else p) =
      fun p : String × β => p.1 == j := by
  funext q
  by_cases hq : (q.1 == k) = true <;> simp [Function.comp, hq]

theorem objGet_objUpd_self {β : Type} (m : List (String × β)) (k : String)
    (v : β) : objGet (objUpd m k v) k = some v := by
  unfold objUpd objGet
  by_cases h : (m.find? (fun p => p.1 == k)).isSome
  · rw [if_pos h, List.find?_map, comp_upd_pred]
    rcases Option.isSome_iff_exists.mp h with ⟨q, hq⟩
    have hqk : (q.1 == k) = true := by
      have h2 := List.find?_some hq
      simpa using h2
    simp [hq, hqk, beq_iff_eq.mp hqk]
  · rw [if_neg h, List.find?_append]
    have hnone : m.find? (fun p => p.1 == k) = none :=
      Option.not_isSome_iff_eq_none.mp h
    simp [hnone]

theorem objGet_objUpd_other {β : Type} (m : List (String × β)) (k j : String)
    (v : β) (hne : j ≠ k) : objGet (objUpd m k v) j = objGet m j := by
  unfold objUpd objGet
  by_cases h : (m.find? (fun p => p.1 == k)).isSome
  · rw [if_pos h, List.find?_map, comp_upd_pred]
    cases hq : m.find? (fun p => p.1 == j) with
    | none => rfl
    | some q =>
      have hqj : q.1 = j := by
        have h2 := List.find?_some hq
        simpa using h2
      have hqk : ¬ q.1 = k := by
        rw [hqj]
        exact hne
      simp [hqk]
  · rw [if_neg h, List.find?_append]
    have hkj : (k == j) = false := by
      simp
      exact fun hh => hne hh.symm
    simp [hkj]

/-! ## Frontend: alert storage (frontend/src/lib/storage.js) -/

/-- State of the localStorage slot under the key
`stockRotatorShownAlerts`: no value stored, a stored string that fails to
parse as JSON, or a stored serialization of an alerts object (alert id to
boolean). -/
inductive StorageSlot where
  | absent
  | corrupt
  | stored (m : List (String × Bool))
deriving DecidableEq

/-- The environment a storage access runs in: whether `window` is defined
(`typeof window === "undefined"` guard in both `get()` and `set()`), and
whether `localStorage.setItem` succeeds or throws (the `try/catch` in
`set()`, e.g. quota exceeded). -/
structure StorageEnv where
  windowDefined : Bool
  setItemOk : Bool
deriving DecidableEq, Repr

namespace alertStorage

/-- `alertStorage.get()`: returns `{}` when `window` is undefined, when
nothing is stored, or when parsing throws (the catch branch); otherwise
the parsed stored object. -/
def get (env : StorageEnv) (slot : StorageSlot) : List (String × Bool) :=
  if env.windowDefined then
    match slot with
    | .absent => []
    | .corrupt => []
    | .stored m => m
  else []

/-- `alertStorage.set(alertsObj)`: returns with the store untouched when
`window` is undefined; serializes and stores the object, but leaves the
store unchanged when `localStorage.setItem` throws (the catch branch only
logs). -/
def set (env : StorageEnv) (slot : StorageSlot)
    (m : List (String × Bool)) : StorageSlot :=
  if env.windowDefined && env.setItemOk then .stored m else slot

/-- `alertStorage.isShown(alertId)`: `!!alerts[alertId]` on the object
returned by `get()`. -/
def isShown (env : StorageEnv) (slot : StorageSlot) (id : String) : Bool :=
  (objGet (get env slot) id).getD false

/-- `alertStorage.markAsShown(alertId)`: read, assign `true` to the id,
write back. -/
def markAsShown (env : StorageEnv) (slot : StorageSlot) (id : String) :
    StorageSlot :=
  set env slot (objUpd (get env slot) id true)

end alertStorage

/-- C8 counterexample: the claim as stated is false on the code.  With
`window` defined but `localStorage.setItem` throwing (for example quota
exceeded), `set()`'s catch branch leaves the store unchanged, so
`markAsShown("a")` followed by `isShown("a")` returns `false`, not
`true`. -/
theorem alertStorage_markAsShown_isShown_cex :
    alertStorage.isShown ⟨true, false⟩
        (alertStorage.markAsShown ⟨true, false⟩ .absent "a") "a" = false := by
  rfl

/-- C8 (amended): when `window` is defined and `localStorage.setItem`
succeeds, `markAsShown(id)` makes `isShown(id)` return `true`; in every
environment `markAsShown(id)` leaves `isShown(j)` unchanged for every
other id `j`, and when `window` is undefined or the write throws the
stored value is unchanged; `get()` returns the empty object when no value
is stored or the stored value fails to parse. -/
theorem alertStorage_markAsShown_isShown_ok (env : StorageEnv)
    (slot : StorageSlot) (id j : String) (hne : j ≠ id) :
    (env.windowDefined = true → env.setItemOk = true →
        alertStorage.isShown env (alertStorage.markAsShown env slot id) id =
          true) ∧
      alertStorage.isShown env (alertStorage.markAsShown env slot id) j =
        alertStorage.isShown env slot j ∧
      (env.windowDefined = false ∨ env.setItemOk = false →
        alertStorage.markAsShown env slot id = slot) ∧
      alertStorage.get env .absent = [] ∧
      alertStorage.get env .corrupt = [] := by
  have hfail : ∀ henv : env.windowDefined = false ∨ env.setItemOk = false,
      alertStorage.markAsShown env slot id = slot := by
    intro henv
    unfold alertStorage.markAsShown alertStorage.set
    rcases henv with h | h <;> simp [h]
  refine ⟨?_, ?_, hfail, ?_, ?_⟩
  · intro hw hs
    unfold alertStorage.markAsShown alertStorage.set
    rw [hw, hs]
    show (objGet (alertStorage.get env
      (.stored (objUpd (alertStorage.get env slot) id true))) id).getD false
        = true
    unfold alertStorage.get
    rw [if_pos hw, objGet_objUpd_self]
    rfl
  · cases hw : env.windowDefined with
    | false =>
      rw [hfail (Or.inl hw)]
    | true =>
      cases hs : env.setItemOk with
      | false => rw [hfail (Or.inr hs)]
      | true =>
        unfold alertStorage.markAsShown alertStorage.set
        rw [hw, hs]
        show (objGet (alertStorage.get env
          (.stored (objUpd (alertStorage.get env slot) id true))) j).getD
            false = _
        unfold alertStorage.get
        rw [if_pos hw, objGet_objUpd_other _ _ _ _ hne]
        rfl
  · unfold alertStorage.get
    cases hw : env.windowDefined <;> simp
  · unfold alertStorage.get
    cases hw : env.windowDefined <;> simp

/-- Witness for C8 (amended) in a working environment, on a corrupt slot
with ids `a` and `b`. -/
theorem alertStorage_markAsShown_isShown_ok_witness :
    ((⟨true, true⟩ : StorageEnv).windowDefined = true →
        (⟨true, true⟩ : StorageEnv).setItemOk = true →
        alertStorage.isShown ⟨true, true⟩
          (alertStorage.markAsShown ⟨true, true⟩ .corrupt "a") "a" = true) ∧
      alertStorage.isShown ⟨true, true⟩
          (alertStorage.markAsShown ⟨true, true⟩ .corrupt "a") "b" =
        alertStorage.isShown ⟨true, true⟩ .corrupt "b" ∧
      ((⟨true, true⟩ : StorageEnv).windowDefined = false ∨
          (⟨true, true⟩ : StorageEnv).setItemOk = false →
        alertStorage.markAsShown ⟨true, true⟩ .corrupt "a" = .corrupt) ∧
      alertStorage.get ⟨true, true⟩ .absent = [] ∧
      alertStorage.get ⟨true, true⟩ .corrupt = [] :=
  alertStorage_markAsShown_isShown_ok ⟨true, true⟩ .corrupt "a" "b"
    (by decide)

/-! ## Frontend: chat history persistence (the `Home` page) -/

/-- A chat message as kept in the `messages` state. -/
structure ChatMessage where
  role : String
  content : String
  time : String
deriving DecidableEq, Repr

/-- `MAX_HISTORY_MESSAGES` from the page component. -/
def MAX_HISTORY_MESSAGES : Nat := 50

/-- JS `array.slice(-n)` for `n > 0`: the last `n` elements (all of them
when the array is shorter). -/
def lastN {α : Type} (l : List α) (n : Nat) : List α :=
  l.drop (l.length - n)

/-- The save effect of the `Home` page on `[messages]`: when the message
list is non-empty, write `messages.slice(-MAX_HISTORY_MESSAGES)` under the
history key; if that write throws `QuotaExceededError` (`quotaExceeded`),
write `messages.slice(-20)` instead.  An empty list leaves the stored
value untouched. -/
def saveHistory (messages : List ChatMessage) (quotaExceeded : Bool)
    (storedBefore : Option (List ChatMessage)) : Option (List ChatMessage) :=
  if 0 < messages.length then
    if quotaExceeded then some (lastN messages 20)
    else some (lastN messages MAX_HISTORY_MESSAGES)
  else storedBefore

theorem lastN_length_le {α : Type} (l : List α) (n : Nat) :
    (lastN l n).length ≤ n := by
  unfold lastN
  rw [List.length_drop]
  omega

/-- C9: the persisted chat history never exceeds 50 messages — every save
of a non-empty list writes exactly the last `MAX_HISTORY_MESSAGES = 50`
entries (the last 20 on a quota error), and if the previously stored
history obeyed the bound, so does whatever is stored afterwards. -/
theorem history_bounded (messages : List ChatMessage) (q : Bool)
    (storedBefore : Option (List ChatMessage))
    (hb : ∀ w : List ChatMessage, storedBefore = some w →
      w.length ≤ MAX_HISTORY_MESSAGES) :
    (∀ w : List ChatMessage, saveHistory messages q storedBefore = some w →
        w.length ≤ MAX_HISTORY_MESSAGES) ∧
      (0 < messages.length → q = false →
        saveHistory messages q storedBefore =
          some (lastN messages MAX_HISTORY_MESSAGES)) ∧
      (0 < messages.length → q = true →
        saveHistory messages q storedBefore = some (lastN messages 20) ∧
          (lastN messages 20).length ≤ 20) := by
  refine ⟨?_, ?_, ?_⟩
  · intro w hw
    unfold saveHistory at hw
    by_cases hm : 0 < messages.length
    · rw [if_pos hm] at hw
      cases q with
      | false =>
        simp at hw
        rw [← hw]
        exact lastN_length_le messages MAX_HISTORY_MESSAGES
      | true =>
        simp at hw
        rw [← hw]
        exact Nat.le_trans (lastN_length_le messages 20) (by decide)
    · rw [if_neg hm] at hw
      exact hb w hw
  · intro hm hq
    unfold saveHistory
    rw [if_pos hm, hq]
    rfl
  · intro hm hq
    refine ⟨?_, lastN_length_le messages 20⟩
    unfold saveHistory
    rw [if_pos hm, hq]
    rfl

/-- A concrete three-message chat history used as a test vector. -/
def msgs3 : List ChatMessage :=
  [⟨"user", "a", "t1"⟩, ⟨"assistant", "b", "t2"⟩, ⟨"user", "c", "t3"⟩]

/-- Witness for C9: saving three concrete messages with no quota error
stores exactly those three. -/
theorem history_bounded_witness :
    (∀ w : List ChatMessage, saveHistory msgs3 false none = some w →
        w.length ≤ MAX_HISTORY_MESSAGES) ∧
      (0 < msgs3.length → false = false →
        saveHistory msgs3 false none =
          some (lastN msgs3 MAX_HISTORY_MESSAGES)) ∧
      (0 < msgs3.length → false = true →
        saveHistory msgs3 false none = some (lastN msgs3 20) ∧
          (lastN msgs3 20).length ≤ 20) :=
  history_bounded msgs3 false none (fun w hw => by simp at hw)

/-! ## Frontend: triggered-alert deduplication (the `Home` page) -/

/-- A condition as the frontend sees it in the `/conditions` poll. -/
structure FrontCondition where
  id : String
  status : String
  message : String
deriving DecidableEq, Repr

/-- Truthiness of `alertShownById[condition.id]`: a recorded entry exists
(recorded values are nonempty ISO strings, hence always truthy; they are
modelled as numbers). -/
def shownMem (shown : List (String × Nat)) (id : String) : Bool :=
  (shown.find? (fun p => p.1 == id)).isSome

/-- The ids for which the alert branch of the poll effect fires — each of
these sets `latestAlert` (the banner) and is added to `newlyTriggered`. -/
def firedIds (conds : List FrontCondition) (shown : List (String × Nat)) :
    List String :=
  (conds.filter
    (fun c => c.status == "triggered" && !(shownMem shown c.id))).map
    (fun c => c.id)

/-- The poll effect's update of `alertShownById`:
`{...prev, ...newlyTriggered}` where `newlyTriggered` maps each fired id
to the current time. -/
def pollShown (conds : List FrontCondition) (shown : List (String × Nat))
    (now : Nat) : List (String × Nat) :=
  (firedIds conds shown).foldl (fun acc i => objUpd acc i now) shown

theorem mem_firedIds_not_shown (conds : List FrontCondition)
    (shown : List (String × Nat)) (k : String)
    (hk : k ∈ firedIds conds shown) : shownMem shown k = false := by
  unfold firedIds at hk
  rcases List.mem_map.mp hk with ⟨c, hc, hck⟩
  have hfilter := List.of_mem_filter hc
  rcases Bool.and_eq_true_iff.mp hfilter with ⟨_, hns⟩
  rw [← hck]
  cases h : shownMem shown c.id with
  | false => rfl
  | true => rw [h] at hns; exact absurd hns (by decide)

theorem objGet_pollShown_aux (ks : List String) (m : List (String × Nat))
    (now : Nat) (id : String) (h : ∀ k ∈ ks, k ≠ id) :
    objGet (ks.foldl (fun acc i => objUpd acc i now) m) id = objGet m id := by
  induction ks generalizing m with
  | nil => rfl
  | cons k ks ih =>
    show objGet (ks.foldl (fun acc i => objUpd acc i now) (objUpd m k now))
        id = _
    rw [ih (objUpd m k now) (fun x hx => h x (List.mem_cons_of_mem k hx)),
      objGet_objUpd_other m k id now]
    intro hik
    exact h k (List.mem_cons_self k ks) hik.symm

/-- C10: an id already recorded in `alertShownById` is untouched by any
further poll: its recorded time is not overwritten (`objGet` on the
updated map is unchanged) and it is not among the ids that fire the
latest-alert banner, no matter what the poll returned. -/
theorem alert_at_most_once (conds : List FrontCondition)
    (shown : List (String × Nat)) (now : Nat) (id : String)
    (h : shownMem shown id = true) :
    objGet (pollShown conds shown now) id = objGet shown id ∧
      id ∉ firedIds conds shown := by
  have hnot : id ∉ firedIds conds shown := by
    intro hmem
    rw [mem_firedIds_not_shown conds shown id hmem] at h
    exact absurd h (by decide)
  refine ⟨?_, hnot⟩
  exact objGet_pollShown_aux (firedIds conds shown) shown now id
    (fun k hk hki => hnot (hki ▸ hk))

/-- Witness for C10: a condition with id `a`, already recorded at time 5,
polled again as triggered at time 9: its recorded entry stays at 5 and it
does not fire again. -/
theorem alert_at_most_once_witness :
    objGet (pollShown [⟨"a", "triggered", "m"⟩] [("a", 5)] 9) "a" =
        objGet [("a", 5)] "a" ∧
      "a" ∉ firedIds [⟨"a", "triggered", "m"⟩] [("a", 5)] :=
  alert_at_most_once [⟨"a", "triggered", "m"⟩] [("a", 5)] 9 "a" (by decide)

end StockRotator
